import Mathlib

/-!
Verification development for the Sapling VS Code extension.

The repository source under scrutiny is `src/sapling/src/SidebarProvider.ts`:
the host panel that owns a `SaplingParser`, a workspace key-value store with
the keys `sapling` (the persisted tree) and `saplingSettings` (the persisted
settings), and a webview to which it posts `parsed-data` and `settings-data`
messages.  The `SaplingParser` itself (Tree Builder / Tree Store of the spec)
is not part of the excerpt, so its operations are modelled from the spec
(sections 3, 4.3, 4.4); every such definition carries a doc comment starting
with `Modelled from the spec:`.  Everything else is translated directly from
`SidebarProvider.ts` and the relevant line numbers are cited.

The embedding is pure: the webview, the file pickers and the file system are
inputs (`Bool` for view attachment, `Option String` for picker results, `FS`
for the import graph on disk), and every handler returns the successor
provider state together with the list of messages posted to the webview.
-/

namespace Sapling

/-- Settings record, from `types/SaplingSettings` as used by
`SidebarProvider.ts` lines 30-37: alias mode, application root and the two
optional config paths. -/
structure SaplingSettings where
  useAlias : Bool
  appRoot : String
  webpackConfig : String
  tsConfig : String
  deriving DecidableEq, Repr

mutual
/-- Modelled from the spec: a Node of section 3 — stable id, absolute file
path, display name, expand state and ordered children.  The code of
`SidebarProvider.ts` line 41 additionally shows that the persisted snapshot
exposes the entry path as the field `filePath`.  The `cycle` flag marks a
cycle leaf (spec section 3 and glossary).  The optional error classification
of section 7 is outside this model, which does not model unreadable files. -/
inductive Tree where
  | node (id : Nat) (filePath : String) (name : String) (expanded : Bool) (cycle : Bool)
      (children : TreeList)
  deriving DecidableEq, Repr

/-- Ordered sequence of sibling nodes (the `children` field of a Node). -/
inductive TreeList where
  | nil : TreeList
  | cons : Tree → TreeList → TreeList
  deriving DecidableEq, Repr
end

/-- Projection: the id of the root node of a tree. -/
def Tree.id : Tree → Nat
  | .node i _ _ _ _ _ => i

/-- Projection: the file path of the root node of a tree.  This is the field
that `SidebarProvider.ts` line 41 reads from the persisted snapshot. -/
def Tree.filePath : Tree → String
  | .node _ fp _ _ _ _ => fp

/-- Projection: the display name of the root node. -/
def Tree.name : Tree → String
  | .node _ _ nm _ _ _ => nm

/-- Projection: the expand flag of the root node. -/
def Tree.expanded : Tree → Bool
  | .node _ _ _ e _ _ => e

/-- Projection: the cycle-leaf flag of the root node. -/
def Tree.cycle : Tree → Bool
  | .node _ _ _ _ c _ => c

/-- Projection: the children of the root node. -/
def Tree.children : Tree → TreeList
  | .node _ _ _ _ _ cs => cs

/-- String-valued property lookup on a persisted Tree record, modelling a JS
property access on the snapshot object: the record has the fields of a Node,
so reading `filePath` or `name` succeeds and reading any other name (such as
`entryFilePath`) yields `undefined`, modelled as `none`. -/
def Tree.getStringField (t : Tree) (field : String) : Option String :=
  if field = "filePath" then some t.filePath
  else if field = "name" then some t.name
  else none

/-- File system as the Resolver and Analyzer see it: the import graph on disk
(for each analyzable file, the ordered list of absolute paths its imports
resolve to) and the set of files the config parsers can read.  A file absent
from `imports` yields a leaf with no children. -/
structure FS where
  imports : List (String × List String)
  parseable : List String
  deriving DecidableEq, Repr

/-- Number of files that own an entry of the import graph and do not yet
appear on the current recursion path: the termination measure of `build`. -/
def keysNotOnPath (g : List (String × List String)) (path : List String) : Nat :=
  g.countP fun e => !path.contains e.1

theorem keysNotOnPath_le (g : List (String × List String)) (path : List String) (f : String) :
    keysNotOnPath g (f :: path) ≤ keysNotOnPath g path := by
  apply List.countP_mono_left
  intro e _ he
  simp only [Bool.not_eq_true', List.contains_cons] at *
  simp only [Bool.or_eq_false_iff] at he
  exact he.2

theorem keysNotOnPath_lt (g : List (String × List String)) (path : List String) (f : String)
    (hf : ¬ path.contains f) (hk : (g.lookup f).isSome) :
    keysNotOnPath g (f :: path) < keysNotOnPath g path := by
  induction g with
  | nil => simp [List.lookup] at hk
  | cons e g ih =>
    rw [List.lookup] at hk
    unfold keysNotOnPath at *
    rw [List.countP_cons, List.countP_cons]
    by_cases hef : f == e.1
    · have hfe : e.1 = f := by
        have := hef
        simp only [beq_iff_eq] at this
        exact this.symm
      have h1 : (!(f :: path).contains e.1) = false := by
        simp [hfe, List.contains_cons]
      have h2 : (!path.contains e.1) = true := by
        simp [hfe]
        simpa using hf
      rw [h1, h2]
      have := keysNotOnPath_le g path f
      unfold keysNotOnPath at this
      simp only [Bool.false_eq_true, if_false, if_true]
      omega
    · have hne : (f == e.1) = false := by simpa using hef
      simp only [hne] at hk
      have hlt := ih hk
      have hmono : (if (!(f :: path).contains e.1) = true then 1 else 0) ≤
          (if (!path.contains e.1) = true then 1 else 0) := by
        by_cases hc : (!(f :: path).contains e.1) = true
        · have h2 : (!path.contains e.1) = true := by
            simp only [Bool.not_eq_true', List.contains_cons, Bool.or_eq_false_iff] at hc
            simpa using hc.2
          rw [if_pos hc, if_pos h2]
        · rw [if_neg hc]
          split_ifs <;> omega
      omega

mutual
/-- Modelled from the spec: the depth-first `build` of the Tree Builder
(section 4.3).  It tracks the list of file paths on the current recursion
path; a file already on that path becomes a cycle leaf instead of being
descended into (section 3); otherwise the imports of the file are looked up
on disk and built in order.  Fresh ids are minted from the counter `fid`
(section 4.3: new ids for every node on a fresh build); the root is expanded
by default and every other node collapsed (section 3).  The display name
falls back to the file path, the Analyzer heuristic being outside this
model.  Lean accepts this definition as total: that acceptance is exactly
the termination argument of the spec, via the measure `keysNotOnPath`. -/
def build (g : List (String × List String)) (path : List String) (fid : Nat) (f : String) :
    Tree × Nat :=
  if h : path.contains f then
    (Tree.node fid f f false true TreeList.nil, fid + 1)
  else
    match hm : g.lookup f with
    | none => (Tree.node fid f f path.isEmpty false TreeList.nil, fid + 1)
    | some imports =>
        let r := buildList g (f :: path) (fid + 1) imports
        (Tree.node fid f f path.isEmpty false r.1, r.2)
termination_by (keysNotOnPath g path, 0)
decreasing_by
  have hs : (List.lookup f g).isSome := by rw [hm]; rfl
  exact Prod.Lex.left _ _ (keysNotOnPath_lt g path f h hs)

/-- Modelled from the spec: builds the children of a node, one per resolved
import, in source order, threading the id counter left to right. -/
def buildList (g : List (String × List String)) (path : List String) (fid : Nat)
    (imports : List String) : TreeList × Nat :=
  match imports with
  | [] => (TreeList.nil, fid)
  | c :: rest =>
      let r := build g path fid c
      let rs := buildList g path r.2 rest
      (TreeList.cons r.1 rs.1, rs.2)
termination_by (keysNotOnPath g path, imports.length + 1)
end

theorem build_eq_cycle (g : List (String × List String)) (path : List String) (fid : Nat)
    (f : String) (hc : path.contains f) :
    build g path fid f = (Tree.node fid f f false true TreeList.nil, fid + 1) := by
  rw [build.eq_def, dif_pos hc]

theorem build_eq_none (g : List (String × List String)) (path : List String) (fid : Nat)
    (f : String) (hc : ¬ path.contains f) (hl : List.lookup f g = none) :
    build g path fid f = (Tree.node fid f f path.isEmpty false TreeList.nil, fid + 1) := by
  rw [build.eq_def, dif_neg hc]
  split
  · rfl
  · next imports hm => simp [hl] at hm

theorem build_eq_some (g : List (String × List String)) (path : List String) (fid : Nat)
    (f : String) (imports : List String) (hc : ¬ path.contains f)
    (hl : List.lookup f g = some imports) :
    build g path fid f =
      (Tree.node fid f f path.isEmpty false (buildList g (f :: path) (fid + 1) imports).1,
        (buildList g (f :: path) (fid + 1) imports).2) := by
  rw [build.eq_def, dif_neg hc]
  split
  · next hm => simp [hl] at hm
  · next imports2 hm =>
      rw [hl] at hm
      cases hm
      rfl

mutual
/-- Largest node id occurring in a tree, used to mint fresh ids during an
incremental rebuild without colliding with preserved ids. -/
def Tree.maxId : Tree → Nat
  | .node i _ _ _ _ cs => max i (TreeList.maxId cs)

/-- Largest node id occurring in a sibling list. -/
def TreeList.maxId : TreeList → Nat
  | .nil => 0
  | .cons t ts => max (Tree.maxId t) (TreeList.maxId ts)
end

mutual
/-- Modelled from the spec: sets the `expanded` flag to `b` on the node whose
id is `i`; every other node keeps its flag.  If no node has that id the tree
is returned unchanged (section 4.4: `toggleNode` fails silently). -/
def Tree.setExpanded (i : Nat) (b : Bool) : Tree → Tree
  | .node id fp nm exp cyc cs =>
      Tree.node id fp nm (if id = i then b else exp) cyc (TreeList.setExpanded i b cs)

/-- Modelled from the spec: `Tree.setExpanded` mapped over a sibling list. -/
def TreeList.setExpanded (i : Nat) (b : Bool) : TreeList → TreeList
  | .nil => .nil
  | .cons t ts => .cons (Tree.setExpanded i b t) (TreeList.setExpanded i b ts)
end

mutual
/-- Expand flag of the first node with id `i` in depth-first order, `none`
when no node carries that id. -/
def Tree.expandedOf (i : Nat) : Tree → Option Bool
  | .node id _ _ exp _ cs => if id = i then some exp else TreeList.expandedOf i cs

/-- Expand flag of the first node with id `i` across a sibling list. -/
def TreeList.expandedOf (i : Nat) : TreeList → Option Bool
  | .nil => none
  | .cons t ts =>
      match Tree.expandedOf i t with
      | some e => some e
      | none => TreeList.expandedOf i ts
end

mutual
theorem Tree.expandedOf_setExpanded_node (i : Nat) (b : Bool) :
    ∀ t : Tree, (Tree.setExpanded i b t).expandedOf i = (t.expandedOf i).map fun _ => b
  | .node id fp nm exp cyc cs => by
    simp only [Tree.setExpanded, Tree.expandedOf]
    by_cases h : id = i
    · simp [h]
    · simp [h, TreeList.expandedOf_setExpanded_siblings i b cs]

theorem TreeList.expandedOf_setExpanded_siblings (i : Nat) (b : Bool) :
    ∀ ts : TreeList, (TreeList.setExpanded i b ts).expandedOf i = (ts.expandedOf i).map fun _ => b
  | .nil => rfl
  | .cons t ts => by
    simp only [TreeList.setExpanded, TreeList.expandedOf]
    have ht := Tree.expandedOf_setExpanded_node i b t
    have hts := TreeList.expandedOf_setExpanded_siblings i b ts
    cases hcase : Tree.expandedOf i t with
    | some e => simp [ht, hcase]
    | none => simp [ht, hcase, hts]
end

/-- Modelled from the spec: during an incremental rebuild the existing child
whose `filePath` matches a re-resolved import is kept whole, preserving its
id and expand state (section 4.3: descendants are matched by file path, not
position). -/
def TreeList.findByPath (fp : String) : TreeList → Option Tree
  | .nil => none
  | .cons t ts => if t.filePath = fp then some t else TreeList.findByPath fp ts

/-- Modelled from the spec: rebuilds the children of a node whose file
changed.  Each import, in the new source order, reuses the matching old
child (same file path: id and expand state preserved) or is built fresh with
newly minted ids and default collapsed state (section 4.3). -/
def rebuildChildren (g : List (String × List String)) (changed : String) (old : TreeList)
    (fid : Nat) (imports : List String) : TreeList × Nat :=
  match imports with
  | [] => (TreeList.nil, fid)
  | c :: rest =>
      match old.findByPath c with
      | some t =>
          let rs := rebuildChildren g changed old fid rest
          (TreeList.cons t rs.1, rs.2)
      | none =>
          let r := build g [changed] fid c
          let rs := rebuildChildren g changed old r.2 rest
          (TreeList.cons r.1 rs.1, rs.2)

mutual
/-- Modelled from the spec: `rebuildSubtree` (section 4.3).  Every node whose
`filePath` equals the changed file has its children re-derived from the
re-analyzed import list while the node keeps its own id and expand state;
all other nodes are kept and their children traversed. -/
def rebuildNode (g : List (String × List String)) (changed : String) (fid : Nat) :
    Tree → Tree × Nat
  | .node i fp nm exp cyc cs =>
      if fp = changed then
        match g.lookup changed with
        | none => (Tree.node i fp nm exp cyc TreeList.nil, fid)
        | some imports =>
            let r := rebuildChildren g changed cs fid imports
            (Tree.node i fp nm exp cyc r.1, r.2)
      else
        let r := rebuildList g changed fid cs
        (Tree.node i fp nm exp cyc r.1, r.2)

/-- Modelled from the spec: `rebuildNode` mapped over a sibling list,
threading the fresh-id counter. -/
def rebuildList (g : List (String × List String)) (changed : String) (fid : Nat) :
    TreeList → TreeList × Nat
  | .nil => (.nil, fid)
  | .cons t ts =>
      let r := rebuildNode g changed fid t
      let rs := rebuildList g changed r.2 ts
      (.cons r.1 rs.1, rs.2)
end

/-- Modelled from the spec: the Tree Store of section 4.4 — the entry file
recorded for future parses, the current settings, and the stored tree
(`none` before the first successful parse). -/
structure SaplingParser where
  entryFile : String
  settings : SaplingSettings
  tree : Option Tree
  deriving DecidableEq, Repr

/-- Constructor `new SaplingParser(entryFile, settings)` as called by
`SidebarProvider.ts` lines 41 and 44: records the entry file and settings,
with no tree yet. -/
def SaplingParser.new (entryFile : String) (settings : SaplingSettings) : SaplingParser :=
  { entryFile := entryFile, settings := settings, tree := none }

/-- Modelled from the spec: the one-argument constructor call
`new SaplingParser` with only the empty entry file, from
`SidebarProvider.ts` line 253; the omitted
settings fall back to engine defaults (section 3: created with defaults at
engine construction). -/
def SaplingParser.new1 (entryFile : String) : SaplingParser :=
  SaplingParser.new entryFile
    { useAlias := false, appRoot := "", webpackConfig := "", tsConfig := "" }

/-- Modelled from the spec: records which file future `parse()` calls start
from; does not itself trigger parsing (section 4.4). -/
def SaplingParser.setEntryFile (p : SaplingParser) (path : String) : SaplingParser :=
  { p with entryFile := path }

/-- Modelled from the spec: restores a snapshot as the stored tree without
re-parsing (used at construction, `SidebarProvider.ts` line 42). -/
def SaplingParser.setTree (p : SaplingParser) (t : Tree) : SaplingParser :=
  { p with tree := some t }

/-- Modelled from the spec: read accessor for the stored tree
(section 4.4). -/
def SaplingParser.getTree (p : SaplingParser) : Option Tree :=
  p.tree

/-- Keyed settings update, the tagged-union form of the
`updateSettings(key, value)` calls of `SidebarProvider.ts` lines 104-121
(spec section 9 recommends exactly this modelling). -/
inductive SettingsUpdate where
  | useAlias (b : Bool)
  | appRoot (path : String)
  | webpackConfig (path : String)
  | tsConfig (path : String)
  deriving DecidableEq, Repr

/-- Modelled from the spec: field-by-field settings mutation; never
re-parses by itself (section 4.4). -/
def SaplingParser.updateSettings (p : SaplingParser) (u : SettingsUpdate) : SaplingParser :=
  match u with
  | .useAlias b => { p with settings := { p.settings with useAlias := b } }
  | .appRoot path => { p with settings := { p.settings with appRoot := path } }
  | .webpackConfig path => { p with settings := { p.settings with webpackConfig := path } }
  | .tsConfig path => { p with settings := { p.settings with tsConfig := path } }

/-- Modelled from the spec: settings are valid when `appRoot` is non-empty
and, if alias mode is on, at least one of the two config paths is non-empty
and points to a parseable file (section 3). -/
def SaplingParser.validSettings (p : SaplingParser) (fs : FS) : Bool :=
  p.settings.appRoot != "" &&
    (!p.settings.useAlias ||
      ((p.settings.webpackConfig != "" && fs.parseable.contains p.settings.webpackConfig) ||
        (p.settings.tsConfig != "" && fs.parseable.contains p.settings.tsConfig)))

/-- Modelled from the spec: `parse()` requires valid settings and an entry
file; it then replaces the stored tree with a fresh build whose ids are
minted from zero.  Otherwise the operation fails (`InvalidSettings` or
`NoEntryFile`) and the previously stored tree is left untouched
(sections 4.4 and 7). -/
def SaplingParser.parse (p : SaplingParser) (fs : FS) : SaplingParser :=
  if p.validSettings fs ∧ p.entryFile ≠ "" then
    { p with tree := some (build fs.imports [] 0 p.entryFile).1 }
  else p

/-- Modelled from the spec: `updateTree(changedFilePath)` is a no-op when no
tree is stored, and otherwise replaces the stored tree with the result of
`rebuildSubtree` (section 4.4), minting fresh ids above every id in use. -/
def SaplingParser.updateTree (p : SaplingParser) (fs : FS) (changed : String) : SaplingParser :=
  match p.tree with
  | none => p
  | some t => { p with tree := some (rebuildNode fs.imports changed (t.maxId + 1) t).1 }

/-- Modelled from the spec: `toggleNode(id, expanded)` sets the expand flag
on the node with that id, stores the updated tree and returns it; with no
stored tree there is nothing to update and nothing is returned
(section 4.4). -/
def SaplingParser.toggleNode (p : SaplingParser) (i : Nat) (expanded : Bool) :
    SaplingParser × Option Tree :=
  match p.tree with
  | none => (p, none)
  | some t =>
      let t2 := t.setExpanded i expanded
      ({ p with tree := some t2 }, some t2)

/-- Workspace key-value store as used by `SidebarProvider.ts`: the key
`sapling` holds the persisted tree and the key `saplingSettings` the
persisted settings; `workspaceState.update(key, undefined)` clears a key,
so each key holds an optional value. -/
structure WorkspaceStore where
  sapling : Option Tree
  saplingSettings : Option SaplingSettings
  deriving DecidableEq, Repr

/-- State of a `SidebarProvider`: the workspace store it owns through
`context`, its `parser` field, and whether `_view` is attached (set by
`resolveWebviewView`, line 50). -/
structure ProviderState where
  store : WorkspaceStore
  parser : SaplingParser
  view : Bool
  deriving DecidableEq, Repr

/-- Message posted to the webview: `parsed-data` carries the current tree
(`SidebarProvider.ts` lines 274-277) and `settings-data` the current
settings (lines 280-283). -/
inductive Message where
  | parsedData (t : Option Tree)
  | settingsData (s : SaplingSettings)
  deriving DecidableEq, Repr

/-- The constructor of `SidebarProvider` (`SidebarProvider.ts` lines 15-46):
reads the persisted tree and settings, falls back to default settings whose
`appRoot` is the file-system path of the first workspace folder (or the
empty string when there is no workspace folder), and initialises the parser
— from the snapshot and its `filePath` field when a snapshot exists, with an
empty entry file otherwise.  `folders` is the list of workspace folder
paths. -/
def construct (store : WorkspaceStore) (folders : List String) : ProviderState :=
  let workspaceRoot := folders.headD ""
  let settings := store.saplingSettings.getD
    { useAlias := false, appRoot := workspaceRoot, webpackConfig := "", tsConfig := "" }
  match store.sapling with
  | some t =>
      { store := store, parser := (SaplingParser.new t.filePath settings).setTree t,
        view := false }
  | none => { store := store, parser := SaplingParser.new "" settings, view := false }

/-- The private method `updateView` (`SidebarProvider.ts` lines 263-284): a
no-op without an attached view; otherwise it saves `getTree()` under the
`sapling` key and posts `parsed-data` then `settings-data`. -/
def updateView (s : ProviderState) : ProviderState × List Message :=
  if s.view then
    ({ s with store := { s.store with sapling := s.parser.getTree } },
      [Message.parsedData s.parser.getTree, Message.settingsData s.parser.settings])
  else (s, [])

/-- One `settings` webview message (`SidebarProvider.ts` lines 97-138) with
the outcome of any file or folder picker dialog it opens: the picker result
is `none` when the dialog was dismissed, which makes the handler return
early. -/
inductive SettingsEvent where
  | useAlias (b : Bool)
  | appRoot (pick : Option String)
  | webpackConfig (pick : Option String)
  | tsConfig (pick : Option String)
  deriving DecidableEq, Repr

/-- Whether the settings event gets past its guard: a dismissed picker
(`SidebarProvider.ts` lines 109-111 and 118-120) aborts the handler. -/
def SettingsEvent.applied : SettingsEvent → Bool
  | .useAlias _ => true
  | .appRoot pick => pick.isSome
  | .webpackConfig pick => pick.isSome
  | .tsConfig pick => pick.isSome

/-- The field update an applied settings event performs on the parser
(`SidebarProvider.ts` lines 102-123). -/
def SettingsEvent.apply : SettingsEvent → SaplingParser → SaplingParser
  | .useAlias b, p => p.updateSettings (.useAlias b)
  | .appRoot pick, p => p.updateSettings (.appRoot (pick.getD ""))
  | .webpackConfig pick, p => p.updateSettings (.webpackConfig (pick.getD ""))
  | .tsConfig pick, p => p.updateSettings (.tsConfig (pick.getD ""))

/-- The `settings` case of the message switch (`SidebarProvider.ts` lines
97-138): apply the field update, persist the updated settings under
`saplingSettings`, re-parse exactly when `validSettings()` holds, then
`updateView`. -/
def settingsHandler (fs : FS) (s : ProviderState) (ev : SettingsEvent) :
    ProviderState × List Message :=
  if ev.applied then
    let p1 := ev.apply s.parser
    updateView
      { s with
        parser := if p1.validSettings fs then p1.parse fs else p1,
        store := { s.store with saplingSettings := some p1.settings } }
  else (s, [])

/-- The `onFile` case (`SidebarProvider.ts` lines 141-154): with a picked
file, set it as entry file, re-run `parse()` and `updateView`; with a
dismissed picker, do nothing. -/
def onFileHandler (fs : FS) (s : ProviderState) (pick : Option String) :
    ProviderState × List Message :=
  match pick with
  | none => (s, [])
  | some p => updateView { s with parser := ((s.parser.setEntryFile p).parse fs) }

/-- The `onDidSaveTextDocument` listener (`SidebarProvider.ts` lines 79-87):
returns early when the parser has no entry file, and otherwise routes the
saved file name to `updateTree` and calls `updateView`. -/
def saveHandler (fs : FS) (s : ProviderState) (fileName : String) :
    ProviderState × List Message :=
  if s.parser.entryFile = "" then (s, [])
  else updateView { s with parser := s.parser.updateTree fs fileName }

/-- The `onNodeToggle` case (`SidebarProvider.ts` lines 190-200): returns
early when the parser has no entry file, and otherwise stores the tree
returned by `toggleNode` under the `sapling` key.  No message is posted and
`updateView` is not called. -/
def toggleHandler (s : ProviderState) (i : Nat) (expanded : Bool) :
    ProviderState × List Message :=
  if s.parser.entryFile = "" then (s, [])
  else
    let r := s.parser.toggleNode i expanded
    ({ s with parser := r.1, store := { s.store with sapling := r.2 } }, [])

/-- The public method `clearWorkSpaceState` (`SidebarProvider.ts` lines
250-255): clears both store keys, replaces the parser with
a fresh one-argument `SaplingParser` holding the empty entry file, and
refreshes the view. -/
def clearWorkSpaceState (s : ProviderState) : ProviderState × List Message :=
  updateView
    { s with
      store := { sapling := none, saplingSettings := none },
      parser := SaplingParser.new1 "" }

/-! Concrete fixtures used by witnesses and counterexamples. -/

/-- Sample settings with a non-empty application root and alias mode off. -/
def settings0 : SaplingSettings :=
  { useAlias := false, appRoot := "/proj", webpackConfig := "", tsConfig := "" }

/-- Sample child node. -/
def header0 : Tree := Tree.node 1 "/proj/Header.tsx" "Header" false false TreeList.nil

/-- Sample two-node tree rooted at the entry file. -/
def t0 : Tree :=
  Tree.node 0 "/proj/App.tsx" "App" true false (TreeList.cons header0 TreeList.nil)

/-- Sample file system: the entry file imports the header. -/
def fs0 : FS := { imports := [("/proj/App.tsx", ["/proj/Header.tsx"])], parseable := [] }

/-- Provider state with an attached view, a populated parser and both store
keys set. -/
def c1state : ProviderState :=
  { store := { sapling := some t0, saplingSettings := some settings0 },
    parser := { entryFile := "/proj/App.tsx", settings := settings0, tree := some t0 },
    view := true }

/-- Provider state with an attached view and a parser with no entry file. -/
def sEmpty : ProviderState :=
  { store := { sapling := none, saplingSettings := none },
    parser := { entryFile := "", settings := settings0, tree := none },
    view := true }

/-- Provider state holding a stale persisted tree while the parser has no
entry file and no tree. -/
def c3state : ProviderState :=
  { store := { sapling := some t0, saplingSettings := none },
    parser := { entryFile := "", settings := settings0, tree := none },
    view := true }

/-- Provider state identical to `c1state` except that no view is attached. -/
def s9 : ProviderState :=
  { store := { sapling := some t0, saplingSettings := some settings0 },
    parser := { entryFile := "/proj/App.tsx", settings := settings0, tree := some t0 },
    view := false }

/-! Claim theorems. -/

/-- Claim C7: for every import graph, any file whose path already appears on
the current recursion path is not descended into — it becomes a leaf marked
as a cycle — and on the concrete two-file cycle (A imports B imports B
imports A back) the build terminates with the second occurrence of A as a
cycle leaf.  Termination for every graph is witnessed by `build` being
accepted as a total Lean function, whose measure `keysNotOnPath` is exactly
the argument of the spec. -/
theorem C7_cycle_guard (g : List (String × List String)) (path : List String)
    (fid : Nat) (f : String) (h : path.contains f) :
    build g path fid f = (Tree.node fid f f false true TreeList.nil, fid + 1) ∧
    (build [("/proj/A.tsx", ["/proj/B.tsx"]), ("/proj/B.tsx", ["/proj/A.tsx"])]
        [] 0 "/proj/A.tsx").1 =
      Tree.node 0 "/proj/A.tsx" "/proj/A.tsx" true false
        (TreeList.cons
          (Tree.node 1 "/proj/B.tsx" "/proj/B.tsx" false false
            (TreeList.cons
              (Tree.node 2 "/proj/A.tsx" "/proj/A.tsx" false true TreeList.nil)
              TreeList.nil))
          TreeList.nil) := by
  refine ⟨build_eq_cycle g path fid f h, ?_⟩
  simp [build_eq_some, build_eq_none, build_eq_cycle, buildList, List.lookup]

/-- Claim C7 witness: the guard equation of `C7_cycle_guard` applied at a
concrete path that already contains the file. -/
theorem C7_cycle_guard_witness :
    (["/x.ts"] : List String).contains "/x.ts" = true ∧
    build [] ["/x.ts"] 4 "/x.ts" = (Tree.node 4 "/x.ts" "/x.ts" false true TreeList.nil, 5) :=
  ⟨by decide, (C7_cycle_guard [] ["/x.ts"] 4 "/x.ts" (by decide)).1⟩

/-- Claim C1 counterexample: on a state with an attached view, a set entry
file and a stored tree, the `onNodeToggle` handler persists the toggled tree
but posts no message at all — in particular no `parsed-data` and no
`settings-data` — refuting the claim that every mutating operation emits
both. -/
theorem C1_counterexample :
    c1state.view = true ∧ c1state.parser.entryFile ≠ "" ∧
    (toggleHandler c1state 1 true).1.store.sapling = some (Tree.setExpanded 1 true t0) ∧
    (toggleHandler c1state 1 true).2 = [] ∧
    Message.parsedData ((toggleHandler c1state 1 true).1.parser.getTree) ∉
      (toggleHandler c1state 1 true).2 := by
  refine ⟨rfl, by decide, by decide, rfl, ?_⟩
  have h : (toggleHandler c1state 1 true).2 = [] := rfl
  rw [h]
  simp

/-- Claim C1 amended: after a settings update that got past its picker
guard, after an entry-file selection with a picked file, and after a
file-saved rebuild with an entry file set — all with a view attached — the
host emits exactly the current tree as `parsed-data` followed by the current
settings as `settings-data`; after a node toggle, however, it emits
nothing. -/
theorem C1_amended_emissions (fs : FS) (s : ProviderState) (ev : SettingsEvent)
    (p file : String) (i : Nat) (b : Bool) (hview : s.view = true)
    (happ : ev.applied = true) (hentry : s.parser.entryFile ≠ "") :
    (settingsHandler fs s ev).2 =
      [Message.parsedData (settingsHandler fs s ev).1.parser.getTree,
        Message.settingsData (settingsHandler fs s ev).1.parser.settings] ∧
    (onFileHandler fs s (some p)).2 =
      [Message.parsedData (onFileHandler fs s (some p)).1.parser.getTree,
        Message.settingsData (onFileHandler fs s (some p)).1.parser.settings] ∧
    (saveHandler fs s file).2 =
      [Message.parsedData (saveHandler fs s file).1.parser.getTree,
        Message.settingsData (saveHandler fs s file).1.parser.settings] ∧
    (toggleHandler s i b).2 = [] := by
  refine ⟨?_, ?_, ?_, ?_⟩
  · rw [settingsHandler, if_pos happ]
    simp [updateView, hview]
  · rw [onFileHandler]
    simp [updateView, hview]
  · rw [saveHandler, if_neg hentry]
    simp [updateView, hview]
  · rw [toggleHandler]
    split <;> rfl

/-- Claim C1 amended witness: `C1_amended_emissions` at the concrete
populated state, with the hypotheses discharged there. -/
theorem C1_amended_emissions_witness :
    c1state.view = true ∧ (SettingsEvent.useAlias true).applied = true ∧
    c1state.parser.entryFile ≠ "" ∧
    (toggleHandler c1state 2 false).2 = [] :=
  ⟨rfl, rfl, by decide,
    (C1_amended_emissions fs0 c1state (SettingsEvent.useAlias true) "/proj/App.tsx"
      "/proj/Header.tsx" 2 false rfl rfl (by decide)).2.2.2⟩

/-- Claim C2 counterexample: a document save while the parser has no entry
file leaves the state untouched and emits nothing — the saved path is not
routed to `updateTree` and no updated tree is emitted — refuting the claim
for every save event. -/
theorem C2_counterexample :
    sEmpty.view = true ∧ sEmpty.parser.entryFile = "" ∧
    saveHandler fs0 sEmpty "/proj/Header.tsx" = (sEmpty, []) ∧
    Message.parsedData ((sEmpty.parser.updateTree fs0 "/proj/Header.tsx").getTree) ∉
      (saveHandler fs0 sEmpty "/proj/Header.tsx").2 := by
  refine ⟨rfl, rfl, rfl, ?_⟩
  have h : (saveHandler fs0 sEmpty "/proj/Header.tsx").2 = [] := rfl
  rw [h]
  simp

/-- Claim C2 amended: for every document-save event arriving while an entry
file is set (and a view is attached), the saved file path is routed to
`updateTree`, the rebuilt tree is persisted, and the updated tree and
current settings are emitted to the view. -/
theorem C2_amended_save_routing (fs : FS) (s : ProviderState) (file : String)
    (hview : s.view = true) (hentry : s.parser.entryFile ≠ "") :
    (saveHandler fs s file).1.parser = s.parser.updateTree fs file ∧
    (saveHandler fs s file).1.store.sapling = (s.parser.updateTree fs file).getTree ∧
    (saveHandler fs s file).2 =
      [Message.parsedData (s.parser.updateTree fs file).getTree,
        Message.settingsData (s.parser.updateTree fs file).settings] := by
  rw [saveHandler, if_neg hentry]
  simp [updateView, hview]

/-- Claim C2 amended witness: `C2_amended_save_routing` at the concrete
populated state. -/
theorem C2_amended_save_routing_witness :
    c1state.view = true ∧ c1state.parser.entryFile ≠ "" ∧
    (saveHandler fs0 c1state "/proj/Header.tsx").1.parser =
      c1state.parser.updateTree fs0 "/proj/Header.tsx" :=
  ⟨rfl, by decide,
    (C2_amended_save_routing fs0 c1state "/proj/Header.tsx" rfl (by decide)).1⟩

/-- Claim C3 counterexample: a toggle event arriving while the parser has no
entry file is dropped by the guard — the stale persisted tree stays in the
store — whereas the claim, taken over every toggle event, requires the store
to receive the tree returned by `toggleNode` (here `none`). -/
theorem C3_counterexample :
    c3state.parser.entryFile = "" ∧
    (c3state.parser.toggleNode 5 true).2 = none ∧
    (toggleHandler c3state 5 true).1.store.sapling = some t0 ∧
    (toggleHandler c3state 5 true).1.store.sapling ≠ (c3state.parser.toggleNode 5 true).2 := by
  have h2 : (c3state.parser.toggleNode 5 true).2 = none := rfl
  have h3 : (toggleHandler c3state 5 true).1.store.sapling = some t0 := rfl
  refine ⟨rfl, h2, h3, ?_⟩
  rw [h2, h3]
  simp

/-- Claim C3 amended: for every toggle event received while an entry file is
set, the host routes it to `toggleNode` and persists the returned tree under
the `sapling` key; `toggleNode` returns the stored tree with the expand flag
of the node carrying the toggled id set to the requested value. -/
theorem C3_amended_toggle_routing (s : ProviderState) (i : Nat) (b : Bool) (t : Tree)
    (hentry : s.parser.entryFile ≠ "") (htree : s.parser.tree = some t) :
    (toggleHandler s i b).1.parser = (s.parser.toggleNode i b).1 ∧
    (toggleHandler s i b).1.store.sapling = (s.parser.toggleNode i b).2 ∧
    (s.parser.toggleNode i b).2 = some (t.setExpanded i b) ∧
    (t.setExpanded i b).expandedOf i = (t.expandedOf i).map fun _ => b := by
  rw [toggleHandler, if_neg hentry]
  refine ⟨rfl, rfl, ?_, Tree.expandedOf_setExpanded_node i b t⟩
  rw [SaplingParser.toggleNode, htree]

/-- Claim C3 amended witness: `C3_amended_toggle_routing` at the concrete
populated state; toggling id 1 collapses the header node. -/
theorem C3_amended_toggle_routing_witness :
    c1state.parser.entryFile ≠ "" ∧ c1state.parser.tree = some t0 ∧
    (c1state.parser.toggleNode 1 true).2 = some (t0.setExpanded 1 true) :=
  ⟨by decide, rfl,
    (C3_amended_toggle_routing c1state 1 true t0 (by decide) rfl).2.2.1⟩

/-- Claim C4 counterexample: the concrete persisted snapshot `t0` has no
`entryFilePath` field — reading that name yields `undefined` — while the
constructor recovers the entry path from the field named `filePath`
(`SidebarProvider.ts` line 41). -/
theorem C4_counterexample :
    Tree.getStringField t0 "entryFilePath" = none ∧
    Tree.getStringField t0 "filePath" = some "/proj/App.tsx" ∧
    (construct { sapling := some t0, saplingSettings := none } ["/proj"]).parser.entryFile =
      "/proj/App.tsx" := by
  refine ⟨by decide, by decide, rfl⟩

/-- Claim C4 amended: every Tree snapshot persisted to or restored from the
workspace store is the root Node record itself; the entry file path is
carried in its field named `filePath`, which is what the constructor reads
back when restoring, and no `entryFilePath` field exists on the record. -/
theorem C4_amended_snapshot_shape (t : Tree) (ss : Option SaplingSettings)
    (folders : List String) :
    (construct { sapling := some t, saplingSettings := ss } folders).parser.entryFile =
      t.filePath ∧
    (construct { sapling := some t, saplingSettings := ss } folders).parser.tree = some t ∧
    t.getStringField "filePath" = some t.filePath ∧
    t.getStringField "entryFilePath" = none := by
  refine ⟨rfl, rfl, rfl, rfl⟩

/-- Claim C5: when no settings are persisted, the parser is created with
default settings — alias mode off, application root the path of the first
workspace folder (the empty string when there is no workspace folder), and
empty config paths. -/
theorem C5_default_settings (treeState : Option Tree) (folders : List String) :
    (construct { sapling := treeState, saplingSettings := none } folders).parser.settings =
      { useAlias := false, appRoot := folders.headD "", webpackConfig := "",
        tsConfig := "" } ∧
    (construct { sapling := treeState, saplingSettings := none } []).parser.settings.appRoot =
      "" := by
  constructor
  · cases treeState <;> rfl
  · cases treeState <;> rfl

/-- Claim C6: persisted state is loaded at construction — a stored snapshot
initialises the entry file from its stored path and is restored as the tree
verbatim, with no re-parse — and saved after mutation: whenever `updateView`
runs with an attached view it writes the current tree back under the
`sapling` key. -/
theorem C6_load_save_points (t : Tree) (ss : Option SaplingSettings)
    (folders : List String) (s : ProviderState) (hview : s.view = true) :
    (construct { sapling := some t, saplingSettings := ss } folders).parser.entryFile =
      t.filePath ∧
    (construct { sapling := some t, saplingSettings := ss } folders).parser.tree = some t ∧
    (updateView s).1.store.sapling = s.parser.getTree := by
  refine ⟨rfl, rfl, ?_⟩
  rw [updateView, if_pos hview]

/-- Claim C6 witness: `C6_load_save_points` at the concrete populated state
with the view attached. -/
theorem C6_load_save_points_witness :
    c1state.view = true ∧ (updateView c1state).1.store.sapling = c1state.parser.getTree :=
  ⟨rfl, (C6_load_save_points t0 none ["/proj"] c1state rfl).2.2⟩

/-- Claim C8: `clearWorkSpaceState` leaves both store keys cleared, replaces
the parser with a freshly constructed one whose entry file is the empty
string and which holds no tree, and — when a view is attached — refreshes it
by emitting the now-empty tree and the default settings. -/
theorem C8_clear_workspace_state (s : ProviderState) :
    (clearWorkSpaceState s).1.store.sapling = none ∧
    (clearWorkSpaceState s).1.store.saplingSettings = none ∧
    (clearWorkSpaceState s).1.parser = SaplingParser.new1 "" ∧
    (clearWorkSpaceState s).1.parser.entryFile = "" ∧
    (clearWorkSpaceState s).1.parser.tree = none ∧
    (s.view = true →
      (clearWorkSpaceState s).2 =
        [Message.parsedData none, Message.settingsData (SaplingParser.new1 "").settings]) := by
  rw [clearWorkSpaceState, updateView]
  cases hv : s.view <;> simp [hv, SaplingParser.getTree, SaplingParser.new1, SaplingParser.new]

/-- Claim C8 witness: `C8_clear_workspace_state` at the concrete populated
state, whose attached view receives the refresh messages. -/
theorem C8_clear_workspace_state_witness :
    c1state.view = true ∧
    (clearWorkSpaceState c1state).2 =
      [Message.parsedData none, Message.settingsData (SaplingParser.new1 "").settings] :=
  ⟨rfl, (C8_clear_workspace_state c1state).2.2.2.2.2 rfl⟩

/-- Claim C9: with no view attached, `updateView` is a complete no-op — the
state, including the persisted `sapling` key, is unchanged and nothing is
posted — and consequently the mutating handlers leave the persisted
`sapling` key untouched when they run before a view attaches. -/
theorem C9_no_view_noop (fs : FS) (s : ProviderState) (ev : SettingsEvent)
    (p file : String) (hview : s.view = false) :
    updateView s = (s, []) ∧
    (onFileHandler fs s (some p)).1.store.sapling = s.store.sapling ∧
    (saveHandler fs s file).1.store.sapling = s.store.sapling ∧
    (settingsHandler fs s ev).1.store.sapling = s.store.sapling := by
  have hup : ∀ s2 : ProviderState, s2.view = false → updateView s2 = (s2, []) := by
    intro s2 h2
    rw [updateView, if_neg (by simp [h2])]
  refine ⟨hup s hview, ?_, ?_, ?_⟩
  · rw [onFileHandler, hup _ (by simpa using hview)]
  · rw [saveHandler]
    split
    · rfl
    · rw [hup _ (by simpa using hview)]
  · rw [settingsHandler]
    split
    · rw [hup _ (by simpa using hview)]
    · rfl

/-- Claim C9 witness: `C9_no_view_noop` at the concrete state without an
attached view. -/
theorem C9_no_view_noop_witness :
    s9.view = false ∧ updateView s9 = (s9, []) :=
  ⟨rfl, (C9_no_view_noop fs0 s9 (SettingsEvent.useAlias true) "/proj/App.tsx"
    "/proj/Header.tsx" rfl).1⟩

/-- Claim C10: in the settings handler, once a field update got past its
picker guard, the updated settings are persisted under `saplingSettings`
and, with a view attached, sent to it; `parse()` runs exactly when
`validSettings()` holds on the updated parser — in particular an invalid
settings state leaves the stored tree untouched. -/
theorem C10_parse_iff_valid (fs : FS) (s : ProviderState) (ev : SettingsEvent)
    (happ : ev.applied = true) :
    (settingsHandler fs s ev).1.parser =
      (if (ev.apply s.parser).validSettings fs then (ev.apply s.parser).parse fs
        else ev.apply s.parser) ∧
    (settingsHandler fs s ev).1.store.saplingSettings = some (ev.apply s.parser).settings ∧
    ((ev.apply s.parser).validSettings fs = false →
      (settingsHandler fs s ev).1.parser.tree = s.parser.tree) ∧
    (s.view = true →
      Message.settingsData (settingsHandler fs s ev).1.parser.settings ∈
        (settingsHandler fs s ev).2) := by
  rw [settingsHandler, if_pos happ]
  have hpar : ∀ s2 : ProviderState, (updateView s2).1.parser = s2.parser := by
    intro s2
    rw [updateView]
    split <;> rfl
  have hset : ∀ s2 : ProviderState, (updateView s2).1.store.saplingSettings =
      s2.store.saplingSettings := by
    intro s2
    rw [updateView]
    split <;> rfl
  have htr : ∀ ev2 : SettingsEvent, (ev2.apply s.parser).tree = s.parser.tree := by
    intro ev2
    cases ev2 <;> rfl
  refine ⟨by rw [hpar], by rw [hset], ?_, ?_⟩
  · intro hinv
    rw [hpar, hinv]
    simp only [Bool.false_eq_true, if_false]
    exact htr ev
  · intro hv
    rw [updateView, if_pos (by simpa using hv)]
    simp

/-- Claim C10 witness: `C10_parse_iff_valid` for a `useAlias` update on the
concrete populated state. -/
theorem C10_parse_iff_valid_witness :
    (SettingsEvent.useAlias true).applied = true ∧
    (settingsHandler fs0 c1state (SettingsEvent.useAlias true)).1.store.saplingSettings =
      some ((SettingsEvent.useAlias true).apply c1state.parser).settings :=
  ⟨rfl, (C10_parse_iff_valid fs0 c1state (SettingsEvent.useAlias true) rfl).2.1⟩

end Sapling
